import Mathlib

/-!
Verification model of the itpeople talent-finder repository.

The TypeScript sources are embedded shallowly:
- JS strings are Lean `String`s; string algorithms are implemented over
  `List Char` (`String.data`) so that they evaluate by kernel reduction.
  JS regex literals, which in the source are only ever word-boundary or
  substring tests of fixed alternatives, are embedded as explicit
  alternative lists with an executable word-boundary matcher mirroring
  the JS `\b` semantics (word class A-Z a-z 0-9 _).
- JS numbers carrying scores are modelled as exact rationals (`ℚ`);
  counts coming from the GitHub/Stack Overflow APIs as naturals;
  timestamps (ISO date strings in the source, always consumed through
  `new Date(...).getTime()`) as integer epoch milliseconds.
- `Date.now()` / `new Date()` is made an explicit `now : ℤ` parameter.
- Nullable / optional fields become `Option`; JS falsiness of `0` and
  of the empty string is reproduced where the source relies on it.
-/

namespace ITPeople

/-! ## String machinery (List Char based, kernel-reducible) -/

/-- JS regex word class `\w` = `[A-Za-z0-9_]`, used by the `\b` boundary. -/
def isWordChar (c : Char) : Bool :=
  ('a' ≤ c && c ≤ 'z') || ('A' ≤ c && c ≤ 'Z') || ('0' ≤ c && c ≤ '9') || c == '_'

/-- Lower-casing as used by `toLowerCase()` on the scripts that occur in the
embedded patterns: ASCII A-Z and Cyrillic А-Я / Ё. Other characters are kept. -/
def jsLowerChar (c : Char) : Char :=
  if 'A' ≤ c && c ≤ 'Z' then Char.ofNat (c.toNat + 32)
  else if 0x410 ≤ c.toNat && c.toNat ≤ 0x42F then Char.ofNat (c.toNat + 32)
  else if c.toNat == 0x401 then Char.ofNat 0x451
  else c

def lowerStr (s : List Char) : List Char := s.map jsLowerChar

/-- If `pat` is a leading segment of `s`, return the remainder of `s`. -/
def dropMatch : List Char → List Char → Option (List Char)
  | [], s => some s
  | _ :: _, [] => none
  | p :: ps, c :: cs => if p == c then dropMatch ps cs else none

/-- A `\b` boundary holds between two (optional, none = out of text)
characters iff exactly one of them is a word character. -/
def wordBoundary (a b : Option Char) : Bool :=
  (match a with | some c => isWordChar c | none => false) !=
  (match b with | some c => isWordChar c | none => false)

/-- Does `pat` occur at the head of `s`, with `\b` boundaries on both sides?
`prev` is the character just before this position. -/
def matchHere (pat : List Char) (prev : Option Char) (s : List Char) : Bool :=
  match dropMatch pat s with
  | some rest => wordBoundary prev s.head? && wordBoundary pat.getLast? rest.head?
  | none => false

/-- Search `s` for an occurrence of `pat` delimited by `\b` boundaries. -/
def searchWord (pat : List Char) : Option Char → List Char → Bool
  | prev, [] => matchHere pat prev []
  | prev, c :: cs => matchHere pat prev (c :: cs) || searchWord pat (some c) cs

/-- Embeds a JS test `/\bpat\b/i.test(s)` for a literal alternative `pat`. -/
def testWordPattern (pat : String) (s : String) : Bool :=
  searchWord (lowerStr pat.data) none (lowerStr s.data)

/-- Plain substring occurrence (JS `String.prototype.includes`). -/
def containsChars (pat : List Char) : List Char → Bool
  | [] => (dropMatch pat []).isSome
  | c :: cs => (dropMatch pat (c :: cs)).isSome || containsChars pat cs

/-- JS `s.includes(pat)` (case-sensitive). -/
def strIncludes (pat s : String) : Bool := containsChars pat.data s.data

/-- Case-insensitive substring occurrence; embeds JS
`s.toLowerCase().includes(pat.toLowerCase())` and `/pat/i.test(s)` for a
literal alternative `pat`. -/
def containsCI (pat s : String) : Bool :=
  containsChars (lowerStr pat.data) (lowerStr s.data)

/-- Match of the one non-literal regex piece `st\.?\s*petersburg` at the head
of an (already lower-cased) character list. JS `\s` is approximated by ASCII
whitespace, which covers all realistic profile text. -/
def stPetersburgHere (s : List Char) : Bool :=
  match dropMatch [ 's', 't'] s with
  | none => false
  | some r1 =>
    let r2 := match r1 with
      | '.' :: t => t
      | _ => r1
    (dropMatch [ 'p', 'e', 't', 'e', 'r', 's', 'b', 'u', 'r', 'g'] (r2.dropWhile Char.isWhitespace)).isSome

/-- Search for `st\.?\s*petersburg` anywhere in an already lower-cased list. -/
def stPetersburgSearch : List Char → Bool
  | [] => stPetersburgHere []
  | c :: cs => stPetersburgHere (c :: cs) || stPetersburgSearch cs

/-- List-level `endsWith` (suffix test). -/
def endsWithChars (suffixChars s : List Char) : Bool :=
  (dropMatch suffixChars.reverse s.reverse).isSome

/-- JS `String.prototype.length` counts UTF-16 code units. -/
def jsStrLength (s : List Char) : ℕ :=
  (s.map (fun c => if c.toNat ≥ 0x10000 then 2 else 1)).sum

/-- Split on runs of whitespace and drop empty tokens; embeds
`text.split(/\s+/).filter(p => p.length > 0)`. -/
def splitWsAux : List Char → List Char → List (List Char)
  | acc, [] => [acc.reverse]
  | acc, c :: cs =>
    if c.isWhitespace then acc.reverse :: splitWsAux [] cs
    else splitWsAux (c :: acc) cs

def splitWs (s : List Char) : List (List Char) :=
  (splitWsAux [] s).filter (fun t => t ≠ [])

/-! ## Spoken-language detector — src/src/lib/github.ts, detectSpokenLanguage -/

/-- Cyrillic block `[Ѐ-ӿ]`. -/
def isCyrillicChar (c : Char) : Bool := 0x400 ≤ c.toNat && c.toNat ≤ 0x4FF

/-- CJK unified ideographs `[一-鿿]`. -/
def isCJKChar (c : Char) : Bool := 0x4e00 ≤ c.toNat && c.toNat ≤ 0x9fff

/-- Hiragana or Katakana `[぀-ゟ゠-ヿ]`. -/
def isKanaChar (c : Char) : Bool :=
  (0x3040 ≤ c.toNat && c.toNat ≤ 0x309f) || (0x30a0 ≤ c.toNat && c.toNat ≤ 0x30ff)

/-- Hangul syllables `[가-힯]`. -/
def isHangulChar (c : Char) : Bool := 0xac00 ≤ c.toNat && c.toNat ≤ 0xd7af

def hasCharIn (p : Char → Bool) (s : String) : Bool := s.data.any p

/-- The `bioPatterns` table: per language, the literal alternatives of its
word-boundary regexes, in source order. -/
def bioPatterns : List (String × List String) :=
  [("Russian",
     ["русский", "русскоговорящий", "из россии",
      "from russia", "russian", "born in russia",
      "from moscow", "from ukraine", "from belarus",
      "ukrainian", "belarusian"]),
   ("German", ["deutsch", "german native", "native german"]),
   ("Spanish", ["español", "spanish native", "hablo español", "native spanish"]),
   ("French", ["français", "french native", "native french"]),
   ("Portuguese", ["português", "portuguese native", "native portuguese"]),
   ("Chinese", ["中文", "普通话", "chinese native"]),
   ("Japanese", ["日本語", "japanese native"]),
   ("Korean", ["한국어", "korean native"])]

/-- First language of the table one of whose patterns matches the bio. -/
def firstBioPatternMatch (bioText : String) : List (String × List String) → Option String
  | [] => none
  | (lang, pats) :: rest =>
    if pats.any (fun p => testWordPattern p bioText) then some lang
    else firstBioPatternMatch bioText rest

/-- Common Western first names excluded from the single-word-name check. -/
def westernFirstNames : List String :=
  ["martin", "katrina", "katrin", "justin", "dustin", "kristin", "kristina",
   "augustin", "constantine", "colin", "kevin", "gavin", "marvin", "alvin",
   "calvin", "melvin", "irvin", "darwin", "edwin", "kelvin", "corwin",
   "robin", "franklin", "merlin", "berlin", "quinn", "finn", "lin",
   "marina", "nina", "tina", "christina", "sabrina", "carolina", "valentina",
   "regina", "georgina", "wilhelmina", "thomasina", "angelina", "seraphina",
   "eva", "ava", "nova", "silva", "olivia", "geneva"]

/-- Alternatives of the anchored regex
`(?:ov|ev|ova|eva)$|(?:sky|skiy|ski|skaya|skaia)$|(?:enko)$|(?:uk|yuk|chuk)$|(?:ovich|evich|ich|ych)$`:
a suffix test against any of these. -/
def strongRussianSuffixes : List String :=
  ["ov", "ev", "ova", "eva", "sky", "skiy", "ski", "skaya", "skaia",
   "enko", "uk", "yuk", "chuk", "ovich", "evich", "ich", "ych"]

/-- Alternatives of `(?:enko|ovich|evich|sky|skiy|ski)$` for single-word names. -/
def singleNameSuffixes : List String :=
  ["enko", "ovich", "evich", "sky", "skiy", "ski"]

def excludeSurnames : List String := ["laszkov", "nemkov"]

/-- The multi-token branch: test the last token (likely surname) against the
strong Russian suffix patterns, with the length guard and the exclusion list. -/
def surnameCheck (nameParts : List (List Char)) : Bool :=
  if nameParts.length ≥ 2 then
    match nameParts.getLast? with
    | some lastPart =>
      let surname := lowerStr lastPart
      strongRussianSuffixes.any (fun suf => endsWithChars suf.data surname) &&
        jsStrLength surname > 4 &&
        !(excludeSurnames.any (fun e => e.data == surname))
    | none => false
  else false

/-- The single-token branch: only distinctive Slavic suffixes, longer length
guard, and the Western-first-name exclusion set. -/
def singleNameCheck (nameParts : List (List Char)) : Bool :=
  match nameParts with
  | [single] =>
    let nm := lowerStr single
    !(westernFirstNames.any (fun w => w.data == nm)) &&
      (singleNameSuffixes.any (fun suf => endsWithChars suf.data nm) && jsStrLength nm > 5)
  | _ => false

/-- The `russianLocationPatterns` word-boundary regex list; the optional dot of
`/\bst\.? petersburg\b/i` is expanded into its two literal alternatives. -/
def russianLocationPatterns : List String :=
  ["russia", "moscow", "saint petersburg", "st petersburg", "st. petersburg",
   "novosibirsk", "yekaterinburg", "kazan",
   "ukraine", "kyiv", "kiev", "kharkiv", "odessa",
   "belarus", "minsk"]

/-- The detector `detectSpokenLanguage(bio, location?, name?)`. Null / undefined arguments
are `none`; the source replaces them by the empty string (`bio || ''` etc.). -/
def detectSpokenLanguage (bio location name : Option String) : Option String :=
  let bioText := bio.getD ""
  let locationText := location.getD ""
  let nameText := name.getD ""
  -- Cyrillic characters in bio or name
  if hasCharIn isCyrillicChar bioText || hasCharIn isCyrillicChar nameText then some "Russian"
  -- CJK characters in bio
  else if hasCharIn isCJKChar bioText then some "Chinese"
  else if hasCharIn isKanaChar bioText then some "Japanese"
  else if hasCharIn isHangulChar bioText then some "Korean"
  else match firstBioPatternMatch bioText bioPatterns with
  | some language => some language
  | none =>
    -- Russian surname patterns; the `if (nameText)` guard of the source is
    -- subsumed: an empty name yields no tokens, so both checks are false.
    let nameParts := splitWs nameText.data
    if surnameCheck nameParts then some "Russian"
    else if singleNameCheck nameParts then some "Russian"
    -- location (or bio) match on Russian-speaking place names
    else if russianLocationPatterns.any
        (fun p => testWordPattern p locationText || testWordPattern p bioText) then
      some "Russian"
    else none

/-- The spoken-language choices offered by the search form (SearchForm). -/
def SPOKEN_LANGUAGES : List String :=
  ["English", "Russian", "German", "Spanish", "French", "Portuguese",
   "Chinese", "Japanese", "Korean", "Hindi", "Arabic"]

/-! ## Data model — src/src/types/candidate.ts -/

/-- The `Candidate` record. Counts are naturals (GitHub / Stack Overflow API
counters), the two timestamp-ish fields the pipeline never reads are dropped
(`created_at`, `updated_at`, and the always-empty `id`), `last_activity_at`
is epoch milliseconds, `score` an exact rational. -/
structure Candidate where
  github_username : Option String
  github_id : Option ℕ
  name : Option String
  bio : Option String
  location : Option String
  company : Option String
  email : Option String
  blog : Option String
  twitter_username : Option String
  linkedin_url : Option String
  stackoverflow_id : Option ℕ
  avatar_url : Option String
  public_repos : ℕ
  followers : ℕ
  following : ℕ
  total_stars : ℕ
  total_commits : ℕ
  stackoverflow_reputation : ℕ
  detected_spoken_language : Option String
  tech_skills : List String
  score : ℚ
  last_activity_at : Option ℤ
deriving DecidableEq, Repr

/-! ## Scoring — src/src/lib/scoring.ts

The functions take a full `Candidate`; the source takes `Partial<Candidate>`
and replaces each missing numeric field by 0 (`candidate.field || 0`), which
coincides with passing the record with that field set to 0. -/

structure ScoreComponents where
  contributionVolume : ℚ
  projectQuality : ℚ
  recency : ℚ
  reputation : ℚ
deriving DecidableEq, Repr

def scoreContributionVolume (c : Candidate) : ℚ :=
  let repos : ℚ := c.public_repos
  let commits : ℚ := c.total_commits
  -- Normalize repos (0-50 repos = 0-50 points, max at 50)
  let repoScore := min repos 50
  -- Commits are harder to get, so weight them more if available
  let commitScore := if c.total_commits > 0 then min (commits / 100) 50 else 0
  (repoScore + commitScore) / 100 * 100

def scoreProjectQuality (c : Candidate) : ℚ :=
  let stars := c.total_stars
  -- Logarithmic scale for stars (diminishing returns after certain thresholds)
  if stars = 0 then 0
  else if stars < 10 then 20
  else if stars < 50 then 40
  else if stars < 100 then 60
  else if stars < 500 then 80
  else 100

/-- Milliseconds of the 30-day month used by the source
(`1000 * 60 * 60 * 24 * 30`). -/
def monthMs : ℚ := 1000 * 60 * 60 * 24 * 30

/-- The step function of `scoreRecency`: active in the last month = 100,
falls off over 12 months. -/
def recencyTier (monthsAgo : ℚ) : ℚ :=
  if monthsAgo < 1 then 100
  else if monthsAgo < 3 then 80
  else if monthsAgo < 6 then 60
  else if monthsAgo < 12 then 40
  else 20

def scoreRecency (now : ℤ) (c : Candidate) : ℚ :=
  match c.last_activity_at with
  | none => 0
  | some t => recencyTier (((now - t : ℤ) : ℚ) / monthMs)

/-- The `followerScore` block of `scoreReputation` (followers, logarithmic). -/
def followerTier (followers : ℕ) : ℚ :=
  if followers > 0 then
    if followers < 10 then 10
    else if followers < 50 then 25
    else if followers < 100 then 40
    else if followers < 500 then 60
    else if followers < 1000 then 80
    else 100
  else 0

/-- The `soScore` block of `scoreReputation` (Stack Overflow reputation). -/
def soTier (soRep : ℕ) : ℚ :=
  if soRep > 0 then
    if soRep < 100 then 10
    else if soRep < 500 then 25
    else if soRep < 1000 then 40
    else if soRep < 5000 then 60
    else if soRep < 10000 then 80
    else 100
  else 0

def scoreReputation (c : Candidate) : ℚ :=
  let followerScore := followerTier c.followers
  let soScore := soTier c.stackoverflow_reputation
  -- Weight GitHub followers more since SO integration is optional
  if c.stackoverflow_reputation > 0 then followerScore * 0.6 + soScore * 0.4
  else followerScore

def calculateScoreComponents (now : ℤ) (c : Candidate) : ScoreComponents :=
  { contributionVolume := scoreContributionVolume c
    projectQuality := scoreProjectQuality c
    recency := scoreRecency now c
    reputation := scoreReputation c }

/-- JS `Math.round` (round half towards positive infinity), written as an
integer floor division so that it evaluates by kernel reduction. -/
def jsRound (q : ℚ) : ℤ := (2 * q.num + q.den) / (2 * (q.den : ℤ))

def calculateScore (now : ℤ) (c : Candidate) : ℚ :=
  let components := calculateScoreComponents now c
  let weightedScore :=
    components.contributionVolume * 0.25 +
    components.projectQuality * 0.25 +
    components.recency * 0.25 +
    components.reputation * 0.25
  -- Return score on 0-100 scale, rounded to 2 decimal places
  (jsRound (weightedScore * 100) : ℚ) / 100

/-! ## Search filters — src/src/types/candidate.ts

Optional numeric request fields are naturals with 0 standing for absent:
the source guards every read by JS truthiness (`filters.minStars && ...`,
`filters.maxResults || 10`), under which 0 and undefined act identically.
Likewise `spokenLanguage` is a `String` with `""` for absent.
`location` and `minFollowers` only shape the upstream query string, which is
outside this model, and are dropped. -/

structure SearchFilters where
  techSkills : List String
  spokenLanguage : String
  strictLanguageFilter : Bool
  minStars : ℕ
  recentActivityMonths : ℕ
  enableStackOverflow : Bool
  enableLinkedIn : Bool
  maxResults : ℕ
deriving DecidableEq, Repr

/-- Embeds `const maxResults = filters.maxResults || 10`. -/
def effMaxResults (f : SearchFilters) : ℕ :=
  if f.maxResults = 0 then 10 else f.maxResults

/-! ## Per-identity inputs of the search loop

`EnrichedUser` projects the result of `enrichUserData` (github.ts) to the
fields the route handlers read: the GitHub user profile, the derived skill
list and star sum, and the data needed for
`enriched.repos.length > 0 ? enriched.repos[0].pushed_at : enriched.user.updated_at`. -/

structure GitHubSearchUser where
  login : String
  id : ℕ
  avatar_url : String
deriving DecidableEq, Repr

structure EnrichedUser where
  login : String
  id : ℕ
  name : Option String
  bio : Option String
  location : Option String
  company : Option String
  email : Option String
  blog : Option String
  twitter_username : Option String
  avatar_url : String
  public_repos : ℕ
  followers : ℕ
  following : ℕ
  techSkills : List String
  totalStars : ℕ
  latestRepoPush : Option ℤ
  userUpdatedAt : ℤ
deriving DecidableEq, Repr

/-- Embeds `enriched.repos.length > 0 ? enriched.repos[0].pushed_at : enriched.user.updated_at`. -/
def lastActivityOf (e : EnrichedUser) : ℤ := e.latestRepoPush.getD e.userUpdatedAt

/-- Result shape of `enrichWithSOData` (stackoverflow.ts). -/
structure SOData where
  stackoverflow_id : Option ℕ
  stackoverflow_reputation : ℕ
  soTechSkills : List String
deriving DecidableEq, Repr

/-- Result shape of `enrichWithLinkedIn` (linkedin.ts). -/
structure LIData where
  linkedin_url : Option String
  linkedinLanguages : List String
  linkedinSkills : List String
deriving DecidableEq, Repr

/-- What the external world answers for one identity: either the enrichment
data (with what the optional Stack Overflow / LinkedIn lookups would yield,
`none` standing for a caught sub-enrichment failure — the pipeline consults
them only when the corresponding toggle is on), or a thrown error message. -/
inductive EnrichOutcome where
  | success (e : EnrichedUser) (so : Option SOData) (li : Option LIData)
  | failure (msg : String)
deriving DecidableEq, Repr

/-! ## Filter cascade steps — src/src/app/api/search/route.ts POST -/

/-- Batch route: `filters.strictLanguageFilter && filters.enableLinkedIn &&
!detectedLanguage` — defer the language check to LinkedIn whenever strict
filtering and LinkedIn are on and nothing was detected. -/
def deferLanguageCheckBatch (f : SearchFilters) (detected : Option String) : Bool :=
  f.strictLanguageFilter && f.enableLinkedIn && detected.isNone

/-- Streaming route: the per-language alternatives of its `locationHints`
substring regexes (no word boundaries); `st\.?\s*petersburg` of the Russian
pattern is handled separately by `stPetersburgSearch`. -/
def hintPatternAlts : List (String × List String) :=
  [("Russian", ["russia", "ukraine", "belarus", "moscow", "kyiv", "kiev", "minsk", "novosibirsk"]),
   ("German", ["germany", "austria", "switzerland", "berlin", "munich", "vienna", "zurich"]),
   ("Spanish", ["spain", "mexico", "argentina", "colombia", "madrid", "barcelona", "buenos aires"]),
   ("French", ["france", "paris", "lyon", "montreal", "quebec", "brussels"]),
   ("Portuguese", ["brazil", "portugal", "lisbon", "são paulo", "rio"]),
   ("Chinese", ["china", "beijing", "shanghai", "taiwan", "hong kong", "shenzhen"]),
   ("Japanese", ["japan", "tokyo", "osaka", "kyoto"])]

def textMatchesHint (targetLang : String) (text : String) : Bool :=
  match hintPatternAlts.lookup targetLang with
  | none => false
  | some alts =>
    alts.any (fun a => containsCI a text) ||
      (if targetLang = "Russian" then stPetersburgSearch (lowerStr text.data) else false)

/-- Streaming route, `hasLanguageHint`: does the location or bio of the candidate
match the hint pattern of the target language? -/
def hasLanguageHint (targetLang : String) (e : EnrichedUser) : Bool :=
  textMatchesHint targetLang (e.location.getD "") || textMatchesHint targetLang (e.bio.getD "")

/-- Streaming route: defer only with strict + LinkedIn + no detection + a
target language + a location/bio hint for it. -/
def deferLanguageCheckStream (f : SearchFilters) (e : EnrichedUser) (detected : Option String) : Bool :=
  f.strictLanguageFilter && f.enableLinkedIn && detected.isNone &&
    f.spokenLanguage ≠ "" && hasLanguageHint f.spokenLanguage e

/-- The direct language filter, shared verbatim by both route handlers:
skip in strict mode unless the detected language is exactly the target;
skip in lenient mode only when a different language was detected.
Returns true when the candidate is kept. -/
def languageFilterKeeps (f : SearchFilters) (defer : Bool) (detected : Option String) : Bool :=
  if f.spokenLanguage ≠ "" && !defer then
    if f.strictLanguageFilter then
      decide (detected = some f.spokenLanguage)
    else
      match detected with
      | some lang => decide (lang = f.spokenLanguage)
      | none => true
  else true

/-- Case-insensitive skill equality `s.toLowerCase() === skill.toLowerCase()`. -/
def skillEqCI (a b : String) : Bool := lowerStr a.data == lowerStr b.data

/-- Tech-skill filter: with more than one requested skill, every one must
appear case-insensitively among the enriched skills. -/
def techSkillsFilterKeeps (f : SearchFilters) (e : EnrichedUser) : Bool :=
  if f.techSkills.length > 1 then
    f.techSkills.all (fun skill => e.techSkills.any (fun s => skillEqCI s skill))
  else true

/-- Recency filter: drop when the months since the last activity exceed the
requested window. -/
def recencyFilterKeeps (f : SearchFilters) (now lastActivity : ℤ) : Bool :=
  if f.recentActivityMonths ≠ 0 then
    decide (¬ (((now - lastActivity : ℤ) : ℚ) / monthMs > (f.recentActivityMonths : ℚ)))
  else true

/-- Star filter: `filters.minStars && enriched.totalStars < filters.minStars`. -/
def minStarsFilterKeeps (f : SearchFilters) (e : EnrichedUser) : Bool :=
  !(f.minStars ≠ 0 && e.totalStars < f.minStars)

/-- Deferred language check against LinkedIn data:
`linkedInData?.linkedinLanguages?.some(lang => lang.toLowerCase().includes(target.toLowerCase()))`. -/
def linkedInHasLanguage (li : Option LIData) (targetLang : String) : Bool :=
  match li with
  | some d => d.linkedinLanguages.any (fun lang => containsCI targetLang lang)
  | none => false

/-- Case-insensitively deduplicating append of skill lists (the push loops of
the route handlers). -/
def mergeSkills (base extra : List String) : List String :=
  extra.foldl
    (fun acc skill => if acc.any (fun s => skillEqCI s skill) then acc else acc ++ [skill])
    base

/-! ## Per-identity processing

Both route handlers run the same cascade over an enriched user; they differ
only in how `deferLanguageCheck` is computed and in their error handling, so
the shared body is factored out with `defer` as a parameter. `some c` means
`candidates.push(c)`; `none` means one of the `continue`s was taken. -/

def processEnriched (f : SearchFilters) (now : ℤ) (detected : Option String)
    (defer : Bool) (e : EnrichedUser) (so : Option SOData) (li : Option LIData) :
    Option Candidate :=
  if languageFilterKeeps f defer detected = false then none
  else if techSkillsFilterKeeps f e = false then none
  else
    let lastActivity := lastActivityOf e
    if recencyFilterKeeps f now lastActivity = false then none
    else if minStarsFilterKeeps f e = false then none
    else
      -- optional enrichments, consulted only when enabled
      let soData := if f.enableStackOverflow then so else none
      let linkedInData := if f.enableLinkedIn then li else none
      -- deferred language check, now using LinkedIn data
      if defer && f.spokenLanguage ≠ "" && !linkedInHasLanguage linkedInData f.spokenLanguage then
        none
      else
        let soSkills := match soData with | some d => d.soTechSkills | none => []
        let liSkills := match linkedInData with | some d => d.linkedinSkills | none => []
        let allTechSkills := mergeSkills (mergeSkills e.techSkills soSkills) liSkills
        -- candidateData leaves total_commits undefined, and the pushed record
        -- sets it to 0; calculateScore treats both as 0, so the score is
        -- computed on the record with total_commits := 0 and score := 0.
        let base : Candidate :=
          { github_username := some e.login
            github_id := some e.id
            name := e.name
            bio := e.bio
            location := e.location
            company := e.company
            email := e.email
            blog := e.blog
            twitter_username := e.twitter_username
            linkedin_url := (match linkedInData with | some d => d.linkedin_url | none => none)
            stackoverflow_id := (match soData with | some d => d.stackoverflow_id | none => none)
            avatar_url := some e.avatar_url
            public_repos := e.public_repos
            followers := e.followers
            following := e.following
            total_stars := e.totalStars
            total_commits := 0
            stackoverflow_reputation := (match soData with | some d => d.stackoverflow_reputation | none => 0)
            detected_spoken_language := detected
            tech_skills := allTechSkills.take 15
            score := 0
            last_activity_at := some lastActivity }
        some { base with score := calculateScore now base }

/-- The minimal candidate pushed by the batch route when enrichment was rate
limited: identity and avatar only, fixed sentinel score 10. -/
def rateLimitPlaceholder (u : GitHubSearchUser) : Candidate :=
  { github_username := some u.login
    github_id := some u.id
    name := none
    bio := none
    location := none
    company := none
    email := none
    blog := none
    twitter_username := none
    linkedin_url := none
    stackoverflow_id := none
    avatar_url := some u.avatar_url
    public_repos := 0
    followers := 0
    following := 0
    total_stars := 0
    total_commits := 0
    stackoverflow_reputation := 0
    detected_spoken_language := none
    tech_skills := []
    score := 10
    last_activity_at := none }

/-- Embeds the rate-limit test on the error message: it contains 403 or rate limit. -/
def isRateLimitError (msg : String) : Bool :=
  strIncludes "403" msg || strIncludes "rate limit" msg

/-- One iteration body of the batch route (route.ts): enrichment errors keep
the slot as a placeholder when rate limited, otherwise skip the identity. -/
def processUserBatch (f : SearchFilters) (now : ℤ) (u : GitHubSearchUser) :
    EnrichOutcome → Option Candidate
  | .failure msg =>
    if isRateLimitError msg then some (rateLimitPlaceholder u) else none
  | .success e so li =>
    let detected := detectSpokenLanguage e.bio e.location e.name
    processEnriched f now detected (deferLanguageCheckBatch f detected) e so li

/-- One iteration body of the GitHub-first path of the streaming route
(its catch block only logs: every enrichment error skips the identity). -/
def processUserStream (f : SearchFilters) (now : ℤ) (_u : GitHubSearchUser) :
    EnrichOutcome → Option Candidate
  | .failure _ => none
  | .success e so li =>
    let detected := detectSpokenLanguage e.bio e.location e.name
    processEnriched f now detected (deferLanguageCheckStream f e detected) e so li

/-- The shared enrichment loop skeleton of both routes: walk the combined user
list in order, stop as soon as `maxResults` candidates are accumulated. -/
def searchLoop (process : GitHubSearchUser → EnrichOutcome → Option Candidate)
    (maxRes : ℕ) : List (GitHubSearchUser × EnrichOutcome) → List Candidate → List Candidate
  | [], acc => acc
  | (u, o) :: rest, acc =>
    if acc.length ≥ maxRes then acc
    else match process u o with
      | some c => searchLoop process maxRes rest (acc ++ [c])
      | none => searchLoop process maxRes rest acc

/-- Insertion step of the final `candidates.sort((a, b) => b.score - a.score)`. -/
def insertDesc (c : Candidate) : List Candidate → List Candidate
  | [] => [c]
  | d :: ds => if d.score < c.score then c :: d :: ds else d :: insertDesc c ds

def sortByScoreDesc : List Candidate → List Candidate
  | [] => []
  | c :: cs => insertDesc c (sortByScoreDesc cs)

/-- The batch search route POST, as a function of the (deduplicated) upstream
user list and the per-identity enrichment outcomes. -/
def searchBatch (f : SearchFilters) (now : ℤ)
    (inputs : List (GitHubSearchUser × EnrichOutcome)) : List Candidate :=
  sortByScoreDesc (searchLoop (processUserBatch f now) (effMaxResults f) inputs [])

/-- The GitHub-first path of the streaming search route, same shape. -/
def searchStream (f : SearchFilters) (now : ℤ)
    (inputs : List (GitHubSearchUser × EnrichOutcome)) : List Candidate :=
  sortByScoreDesc (searchLoop (processUserStream f now) (effMaxResults f) inputs [])

/-! ## Cache — src/src/lib/cache.ts

The Supabase `cache` table is modelled as an association list keyed by the
cache key; `getCached` returns the read result together with the table state
after the read (read of an expired entry deletes it). The model covers the
configured, error-free store: unconfigured or failing backends short-circuit
to `null` in the source and never touch the table. -/

def CACHE_TTL_HOURS : ℤ := 24

structure CacheEntry (α : Type) where
  payload : α
  created_at : ℤ
  expires_at : ℤ
deriving DecidableEq, Repr

def CacheState (α : Type) := List (String × CacheEntry α)

def deleteKey {α : Type} (st : CacheState α) (key : String) : CacheState α :=
  List.filter (fun kv => kv.1 ≠ key) st

/-- The write `setCache`: upsert with `expires_at` 24 hours after the write. -/
def setCache {α : Type} (now : ℤ) (key : String) (v : α) (st : CacheState α) : CacheState α :=
  (key, { payload := v
          created_at := now
          expires_at := now + CACHE_TTL_HOURS * 60 * 60 * 1000 }) :: deleteKey st key

/-- The read `getCached`: an entry past its expiry is deleted and treated as absent. -/
def getCached {α : Type} (now : ℤ) (key : String) (st : CacheState α) :
    Option α × CacheState α :=
  match List.lookup key st with
  | none => (none, st)
  | some e => if e.expires_at < now then (none, deleteKey st key) else (some e.payload, st)

/-- The only non-null labels `detectSpokenLanguage` can produce. -/
def detectableLanguages : List String :=
  ["Russian", "Chinese", "Japanese", "Korean", "German", "Spanish", "French", "Portuguese"]

/-! ## Concrete fixtures used by witnesses and counterexamples -/

/-- A candidate with every nullable field null and every counter 0 (the
score of an un-enriched record). -/
def emptyCandidate : Candidate :=
  { github_username := none, github_id := none, name := none, bio := none,
    location := none, company := none, email := none, blog := none,
    twitter_username := none, linkedin_url := none, stackoverflow_id := none,
    avatar_url := none, public_repos := 0, followers := 0, following := 0,
    total_stars := 0, total_commits := 0, stackoverflow_reputation := 0,
    detected_spoken_language := none, tech_skills := [], score := 0,
    last_activity_at := none }

def demoUser : GitHubSearchUser :=
  { login := "alice", id := 1, avatar_url := "https://example.com/alice.png" }

/-- A filters object with everything off (the defaults of the form). -/
def defaultFilters : SearchFilters :=
  { techSkills := [], spokenLanguage := "", strictLanguageFilter := false,
    minStars := 0, recentActivityMonths := 0, enableStackOverflow := false,
    enableLinkedIn := false, maxResults := 0 }

/-- Strict Russian filter with LinkedIn enrichment enabled. -/
def strictRussianLI : SearchFilters :=
  { techSkills := [], spokenLanguage := "Russian", strictLanguageFilter := true,
    minStars := 0, recentActivityMonths := 0, enableStackOverflow := false,
    enableLinkedIn := true, maxResults := 0 }

/-- An enriched user carrying no language signal of any kind. -/
def plainEnrichedUser : EnrichedUser :=
  { login := "bob", id := 2, name := some "John Smith", bio := none,
    location := none, company := none, email := none, blog := none,
    twitter_username := none, avatar_url := "https://example.com/bob.png",
    public_repos := 3, followers := 0, following := 0,
    techSkills := ["TypeScript"], totalStars := 0,
    latestRepoPush := some 0, userUpdatedAt := 0 }

/-- An enriched user located in Berlin: a German location hint, but no
signal the GitHub-side detector reacts to. -/
def berlinEnrichedUser : EnrichedUser :=
  { plainEnrichedUser with
    login := "carol"
    id := 3
    name := none
    location := some "Berlin" }

/-- Two candidates agreeing on the six scoring attributes and differing on
name, bio, location, skills and even the stored score. -/
def richCandidateA : Candidate :=
  { emptyCandidate with
    name := some "Ann"
    bio := some "hi"
    public_repos := 30
    total_commits := 500
    total_stars := 150
    followers := 200
    last_activity_at := some 0 }

def richCandidateB : Candidate :=
  { emptyCandidate with
    location := some "Berlin"
    tech_skills := ["Go"]
    score := 99
    public_repos := 30
    total_commits := 500
    total_stars := 150
    followers := 200
    last_activity_at := some 0 }

/-- Lenient variant of the Russian filter (no strict flag, no LinkedIn). -/
def lenientRussian : SearchFilters :=
  { strictRussianLI with strictLanguageFilter := false, enableLinkedIn := false }

/-- Strict German filter with LinkedIn enrichment enabled. -/
def strictGermanLI : SearchFilters :=
  { strictRussianLI with spokenLanguage := "German" }

/-- Strict English filter (a target the GitHub-signal detector never emits). -/
def strictEnglish : SearchFilters :=
  { strictRussianLI with spokenLanguage := "English", enableLinkedIn := false }

/-- LinkedIn data listing Russian among the reported languages. -/
def russianLinkedInData : LIData :=
  { linkedin_url := some "https://linkedin.com/in/bob",
    linkedinLanguages := ["Russian (Native)", "English"], linkedinSkills := [] }

/-! # Theorems -/

/-! ## Scoring lemmas -/

theorem jsRound_eq_floor (q : ℚ) : jsRound q = ⌊q + 1/2⌋ := by
  have h : q + 1/2 = ((2 * q.num + q.den : ℤ) : ℚ) / ((2 * q.den : ℕ) : ℚ) := by
    rw [eq_div_iff (by positivity)]
    push_cast
    nth_rewrite 1 [← Rat.num_div_den q]
    field_simp
    ring
  rw [jsRound, h, Rat.floor_intCast_div_natCast]
  push_cast
  ring_nf

theorem jsRound_mono {a b : ℚ} (h : a ≤ b) : jsRound a ≤ jsRound b := by
  rw [jsRound_eq_floor, jsRound_eq_floor]
  exact Int.floor_le_floor (by linarith)

theorem scoreContributionVolume_eq (c : Candidate) :
    scoreContributionVolume c =
      min (c.public_repos : ℚ) 50 +
        (if 0 < c.total_commits then min ((c.total_commits : ℚ) / 100) 50 else 0) := by
  unfold scoreContributionVolume
  rw [div_mul_cancel₀ _ (by norm_num : (100 : ℚ) ≠ 0)]

theorem scoreContributionVolume_bounds (c : Candidate) :
    0 ≤ scoreContributionVolume c ∧ scoreContributionVolume c ≤ 100 := by
  rw [scoreContributionVolume_eq]
  have h1 : (0 : ℚ) ≤ min (c.public_repos : ℚ) 50 := le_min (by positivity) (by norm_num)
  have h2 : min (c.public_repos : ℚ) 50 ≤ 50 := min_le_right _ _
  constructor
  · split_ifs with hc
    · have : (0 : ℚ) ≤ min ((c.total_commits : ℚ) / 100) 50 :=
        le_min (by positivity) (by norm_num)
      linarith
    · linarith
  · split_ifs with hc
    · have := min_le_right ((c.total_commits : ℚ) / 100) 50
      linarith
    · linarith

theorem scoreProjectQuality_bounds (c : Candidate) :
    0 ≤ scoreProjectQuality c ∧ scoreProjectQuality c ≤ 100 := by
  unfold scoreProjectQuality
  dsimp only
  split_ifs <;> norm_num

theorem recencyTier_bounds (m : ℚ) : 0 ≤ recencyTier m ∧ recencyTier m ≤ 100 := by
  unfold recencyTier
  split_ifs <;> norm_num

theorem scoreRecency_bounds (now : ℤ) (c : Candidate) :
    0 ≤ scoreRecency now c ∧ scoreRecency now c ≤ 100 := by
  unfold scoreRecency
  match c.last_activity_at with
  | none => norm_num
  | some t => exact recencyTier_bounds _

theorem followerTier_bounds (n : ℕ) : 0 ≤ followerTier n ∧ followerTier n ≤ 100 := by
  unfold followerTier
  split_ifs <;> norm_num

theorem soTier_bounds (n : ℕ) : 0 ≤ soTier n ∧ soTier n ≤ 100 := by
  unfold soTier
  split_ifs <;> norm_num

theorem scoreReputation_bounds (c : Candidate) :
    0 ≤ scoreReputation c ∧ scoreReputation c ≤ 100 := by
  unfold scoreReputation
  obtain ⟨hf0, hf1⟩ := followerTier_bounds c.followers
  obtain ⟨hs0, hs1⟩ := soTier_bounds c.stackoverflow_reputation
  dsimp only
  split_ifs <;> constructor <;> linarith

theorem calculateScore_eq (now : ℤ) (c : Candidate) :
    calculateScore now c =
      (jsRound ((scoreContributionVolume c * 0.25 + scoreProjectQuality c * 0.25 +
        scoreRecency now c * 0.25 + scoreReputation c * 0.25) * 100) : ℚ) / 100 := rfl

theorem calculateScore_bounds (now : ℤ) (c : Candidate) :
    0 ≤ calculateScore now c ∧ calculateScore now c ≤ 100 := by
  obtain ⟨ha0, ha1⟩ := scoreContributionVolume_bounds c
  obtain ⟨hb0, hb1⟩ := scoreProjectQuality_bounds c
  obtain ⟨hc0, hc1⟩ := scoreRecency_bounds now c
  obtain ⟨hd0, hd1⟩ := scoreReputation_bounds c
  rw [calculateScore_eq]
  set w : ℚ := scoreContributionVolume c * 0.25 + scoreProjectQuality c * 0.25 +
    scoreRecency now c * 0.25 + scoreReputation c * 0.25 with hw
  have hw0 : 0 ≤ w := by rw [hw]; linarith
  have hw1 : w ≤ 100 := by rw [hw]; linarith
  have hr0 : 0 ≤ jsRound (w * 100) := by
    rw [jsRound_eq_floor]
    exact Int.floor_nonneg.mpr (by linarith)
  have hr1 : jsRound (w * 100) ≤ 10000 := by
    rw [jsRound_eq_floor]
    have h := Int.floor_le_floor (α := ℚ) (show w * 100 + 1/2 ≤ 10000 + 1/2 by linarith)
    have h2 : ⌊(10000 : ℚ) + 1/2⌋ = 10000 := by norm_num
    omega
  constructor
  · positivity
  · rw [div_le_iff₀ (by norm_num : (0:ℚ) < 100)]
    exact_mod_cast hr1.trans_eq (by norm_num)

theorem calculateScore_only_reads_score_fields (now : ℤ) (c1 c2 : Candidate)
    (h1 : c1.public_repos = c2.public_repos)
    (h2 : c1.total_commits = c2.total_commits)
    (h3 : c1.total_stars = c2.total_stars)
    (h4 : c1.followers = c2.followers)
    (h5 : c1.stackoverflow_reputation = c2.stackoverflow_reputation)
    (h6 : c1.last_activity_at = c2.last_activity_at) :
    calculateScore now c1 = calculateScore now c2 := by
  rw [calculateScore_eq, calculateScore_eq]
  have ea : scoreContributionVolume c1 = scoreContributionVolume c2 := by
    unfold scoreContributionVolume
    rw [h1, h2]
  have eb : scoreProjectQuality c1 = scoreProjectQuality c2 := by
    unfold scoreProjectQuality
    rw [h3]
  have ec : scoreRecency now c1 = scoreRecency now c2 := by
    unfold scoreRecency
    rw [h6]
  have ed : scoreReputation c1 = scoreReputation c2 := by
    unfold scoreReputation
    rw [h4, h5]
  rw [ea, eb, ec, ed]

theorem calculateScore_le_of_components_le {now : ℤ} {c1 c2 : Candidate}
    (h1 : scoreContributionVolume c1 ≤ scoreContributionVolume c2)
    (h2 : scoreProjectQuality c1 ≤ scoreProjectQuality c2)
    (h3 : scoreRecency now c1 ≤ scoreRecency now c2)
    (h4 : scoreReputation c1 ≤ scoreReputation c2) :
    calculateScore now c1 ≤ calculateScore now c2 := by
  rw [calculateScore_eq, calculateScore_eq]
  have hw : scoreContributionVolume c1 * 0.25 + scoreProjectQuality c1 * 0.25 +
      scoreRecency now c1 * 0.25 + scoreReputation c1 * 0.25 ≤
      scoreContributionVolume c2 * 0.25 + scoreProjectQuality c2 * 0.25 +
      scoreRecency now c2 * 0.25 + scoreReputation c2 * 0.25 := by
    linarith
  have hj := jsRound_mono (mul_le_mul_of_nonneg_right hw (by norm_num : (0:ℚ) ≤ 100))
  gcongr

theorem scoreContributionVolume_mono (c : Candidate) (r : ℕ) (h : c.public_repos ≤ r) :
    scoreContributionVolume c ≤ scoreContributionVolume { c with public_repos := r } := by
  rw [scoreContributionVolume_eq, scoreContributionVolume_eq]
  dsimp only
  have hc : (c.public_repos : ℚ) ≤ (r : ℚ) := by exact_mod_cast h
  exact add_le_add (min_le_min hc le_rfl) le_rfl

theorem scoreProjectQuality_mono (c : Candidate) (s : ℕ) (h : c.total_stars ≤ s) :
    scoreProjectQuality c ≤ scoreProjectQuality { c with total_stars := s } := by
  unfold scoreProjectQuality
  dsimp only
  split_ifs <;> first | (exfalso; omega) | norm_num

theorem followerTier_mono {a b : ℕ} (h : a ≤ b) : followerTier a ≤ followerTier b := by
  unfold followerTier
  split_ifs <;> first | (exfalso; omega) | norm_num

theorem scoreReputation_mono_followers (c : Candidate) (n : ℕ) (h : c.followers ≤ n) :
    scoreReputation c ≤ scoreReputation { c with followers := n } := by
  unfold scoreReputation
  dsimp only
  have hm := followerTier_mono (b := n) h
  split_ifs <;> linarith

theorem recencyTier_anti {a b : ℚ} (h : a ≤ b) : recencyTier b ≤ recencyTier a := by
  unfold recencyTier
  split_ifs <;> first | (exfalso; linarith) | norm_num

theorem scoreRecency_mono (now : ℤ) (c : Candidate) (t1 t2 : ℤ) (h : t1 ≤ t2) :
    scoreRecency now { c with last_activity_at := some t1 } ≤
      scoreRecency now { c with last_activity_at := some t2 } := by
  unfold scoreRecency
  dsimp only
  apply recencyTier_anti
  have hc : (t1 : ℚ) ≤ (t2 : ℚ) := by exact_mod_cast h
  have hi : ((now - t2 : ℤ) : ℚ) ≤ ((now - t1 : ℤ) : ℚ) := by
    push_cast
    linarith
  have hM : (0 : ℚ) ≤ monthMs⁻¹ := le_of_lt (inv_pos.mpr (by norm_num [monthMs]))
  have := mul_le_mul_of_nonneg_right hi hM
  simpa [div_eq_mul_inv] using this

/-- C1: for every candidate, `calculateScore` stays within 0..100 and is a
function of exactly the six attributes (public_repos, total_commits,
total_stars, followers, stackoverflow_reputation, last_activity_at) at a
fixed evaluation instant: two candidates agreeing on those six fields get
equal scores, so no other field can influence the score. -/
theorem C1_score_pure_deterministic_and_bounded :
    ∀ (now : ℤ) (c1 c2 : Candidate),
      c1.public_repos = c2.public_repos →
      c1.total_commits = c2.total_commits →
      c1.total_stars = c2.total_stars →
      c1.followers = c2.followers →
      c1.stackoverflow_reputation = c2.stackoverflow_reputation →
      c1.last_activity_at = c2.last_activity_at →
      calculateScore now c1 = calculateScore now c2 ∧
        0 ≤ calculateScore now c1 ∧ calculateScore now c1 ≤ 100 := by
  intro now c1 c2 h1 h2 h3 h4 h5 h6
  exact ⟨calculateScore_only_reads_score_fields now c1 c2 h1 h2 h3 h4 h5 h6,
    (calculateScore_bounds now c1).1, (calculateScore_bounds now c1).2⟩

/-- Witness for C1 at two concrete candidates that agree on the six scoring
attributes and differ on name, bio, location and skills. -/
theorem C1_witness :
    calculateScore 7 richCandidateA = calculateScore 7 richCandidateB ∧
      0 ≤ calculateScore 7 richCandidateA ∧ calculateScore 7 richCandidateA ≤ 100 :=
  C1_score_pure_deterministic_and_bounded 7 _ _ rfl rfl rfl rfl rfl rfl

/-- C6: each sub-score is monotone non-decreasing in its driving attribute
(repos for contribution volume, stars for project quality, followers for
reputation, recency of the last activity for recency), and consequently the
composite score is monotone non-decreasing in each of the four. -/
theorem C6_component_and_composite_monotonicity :
    (∀ (c : Candidate) (r : ℕ), c.public_repos ≤ r →
       scoreContributionVolume c ≤ scoreContributionVolume { c with public_repos := r }) ∧
    (∀ (c : Candidate) (s : ℕ), c.total_stars ≤ s →
       scoreProjectQuality c ≤ scoreProjectQuality { c with total_stars := s }) ∧
    (∀ (c : Candidate) (n : ℕ), c.followers ≤ n →
       scoreReputation c ≤ scoreReputation { c with followers := n }) ∧
    (∀ (now : ℤ) (c : Candidate) (t1 t2 : ℤ), t1 ≤ t2 →
       scoreRecency now { c with last_activity_at := some t1 } ≤
         scoreRecency now { c with last_activity_at := some t2 }) ∧
    (∀ (now : ℤ) (c : Candidate) (r : ℕ), c.public_repos ≤ r →
       calculateScore now c ≤ calculateScore now { c with public_repos := r }) ∧
    (∀ (now : ℤ) (c : Candidate) (s : ℕ), c.total_stars ≤ s →
       calculateScore now c ≤ calculateScore now { c with total_stars := s }) ∧
    (∀ (now : ℤ) (c : Candidate) (n : ℕ), c.followers ≤ n →
       calculateScore now c ≤ calculateScore now { c with followers := n }) ∧
    (∀ (now : ℤ) (c : Candidate) (t1 t2 : ℤ), t1 ≤ t2 →
       calculateScore now { c with last_activity_at := some t1 } ≤
         calculateScore now { c with last_activity_at := some t2 }) := by
  refine ⟨scoreContributionVolume_mono, scoreProjectQuality_mono,
    scoreReputation_mono_followers, scoreRecency_mono, ?_, ?_, ?_, ?_⟩
  · intro now c r h
    exact calculateScore_le_of_components_le (scoreContributionVolume_mono c r h)
      le_rfl le_rfl le_rfl
  · intro now c s h
    exact calculateScore_le_of_components_le le_rfl (scoreProjectQuality_mono c s h)
      le_rfl le_rfl
  · intro now c n h
    exact calculateScore_le_of_components_le le_rfl le_rfl le_rfl
      (scoreReputation_mono_followers c n h)
  · intro now c t1 t2 h
    exact calculateScore_le_of_components_le le_rfl le_rfl
      (scoreRecency_mono now c t1 t2 h) le_rfl

/-- Witness for C6 at concrete attribute values. -/
theorem C6_witness :
    scoreContributionVolume emptyCandidate ≤
      scoreContributionVolume { emptyCandidate with public_repos := 20 } ∧
    scoreProjectQuality emptyCandidate ≤
      scoreProjectQuality { emptyCandidate with total_stars := 75 } ∧
    scoreReputation emptyCandidate ≤
      scoreReputation { emptyCandidate with followers := 30 } ∧
    scoreRecency 9 { emptyCandidate with last_activity_at := some 1 } ≤
      scoreRecency 9 { emptyCandidate with last_activity_at := some 5 } ∧
    calculateScore 9 emptyCandidate ≤
      calculateScore 9 { emptyCandidate with public_repos := 20 } ∧
    calculateScore 9 emptyCandidate ≤
      calculateScore 9 { emptyCandidate with total_stars := 75 } ∧
    calculateScore 9 emptyCandidate ≤
      calculateScore 9 { emptyCandidate with followers := 30 } ∧
    calculateScore 9 { emptyCandidate with last_activity_at := some 1 } ≤
      calculateScore 9 { emptyCandidate with last_activity_at := some 5 } :=
  ⟨C6_component_and_composite_monotonicity.1 emptyCandidate 20 (by decide),
   C6_component_and_composite_monotonicity.2.1 emptyCandidate 75 (by decide),
   C6_component_and_composite_monotonicity.2.2.1 emptyCandidate 30 (by decide),
   C6_component_and_composite_monotonicity.2.2.2.1 9 emptyCandidate 1 5 (by decide),
   C6_component_and_composite_monotonicity.2.2.2.2.1 9 emptyCandidate 20 (by decide),
   C6_component_and_composite_monotonicity.2.2.2.2.2.1 9 emptyCandidate 75 (by decide),
   C6_component_and_composite_monotonicity.2.2.2.2.2.2.1 9 emptyCandidate 30 (by decide),
   C6_component_and_composite_monotonicity.2.2.2.2.2.2.2 9 emptyCandidate 1 5 (by decide)⟩

/-! ## Sorting and loop lemmas -/

theorem mem_insertDesc {x c : Candidate} {l : List Candidate} :
    x ∈ insertDesc c l ↔ x = c ∨ x ∈ l := by
  induction l with
  | nil => simp [insertDesc]
  | cons d ds ih =>
    unfold insertDesc
    split_ifs
    · simp [List.mem_cons]
    · simp [List.mem_cons, ih]
      tauto

theorem pairwise_insertDesc {c : Candidate} {l : List Candidate}
    (hl : List.Pairwise (fun a b : Candidate => b.score ≤ a.score) l) :
    List.Pairwise (fun a b : Candidate => b.score ≤ a.score) (insertDesc c l) := by
  induction l with
  | nil => simp [insertDesc]
  | cons d ds ih =>
    rcases List.pairwise_cons.mp hl with ⟨hd, hds⟩
    unfold insertDesc
    split_ifs with hlt
    · refine List.pairwise_cons.mpr ⟨?_, hl⟩
      intro y hy
      rcases List.mem_cons.mp hy with rfl | hy2
      · exact le_of_lt hlt
      · exact (hd y hy2).trans (le_of_lt hlt)
    · refine List.pairwise_cons.mpr ⟨?_, ih hds⟩
      intro y hy
      rcases mem_insertDesc.mp hy with rfl | hy2
      · exact not_lt.mp hlt
      · exact hd y hy2

theorem sortByScoreDesc_pairwise (l : List Candidate) :
    List.Pairwise (fun a b : Candidate => b.score ≤ a.score) (sortByScoreDesc l) := by
  induction l with
  | nil => simp [sortByScoreDesc]
  | cons c cs ih => exact pairwise_insertDesc ih

theorem mem_sortByScoreDesc {x : Candidate} {l : List Candidate} :
    x ∈ sortByScoreDesc l ↔ x ∈ l := by
  induction l with
  | nil => simp [sortByScoreDesc]
  | cons c cs ih =>
    unfold sortByScoreDesc
    rw [mem_insertDesc, ih, List.mem_cons]

theorem length_insertDesc (c : Candidate) (l : List Candidate) :
    (insertDesc c l).length = l.length + 1 := by
  induction l with
  | nil => rfl
  | cons d ds ih =>
    unfold insertDesc
    split_ifs <;> simp [ih]

theorem length_sortByScoreDesc (l : List Candidate) :
    (sortByScoreDesc l).length = l.length := by
  induction l with
  | nil => rfl
  | cons c cs ih =>
    unfold sortByScoreDesc
    rw [length_insertDesc, ih, List.length_cons]

theorem searchLoop_length (process : GitHubSearchUser → EnrichOutcome → Option Candidate)
    (maxRes : ℕ) :
    ∀ (inputs : List (GitHubSearchUser × EnrichOutcome)) (acc : List Candidate),
      acc.length ≤ maxRes → (searchLoop process maxRes inputs acc).length ≤ maxRes := by
  intro inputs
  induction inputs with
  | nil => intro acc h; exact h
  | cons p rest ih =>
    intro acc h
    obtain ⟨u, o⟩ := p
    unfold searchLoop
    split_ifs with hfull
    · exact h
    · match hp : process u o with
      | some c =>
        refine ih (acc ++ [c]) ?_
        have : acc.length < maxRes := not_le.mp hfull
        simp only [List.length_append, List.length_singleton]
        omega
      | none => exact ih acc h

theorem searchLoop_mem (process : GitHubSearchUser → EnrichOutcome → Option Candidate)
    (maxRes : ℕ) :
    ∀ (inputs : List (GitHubSearchUser × EnrichOutcome)) (acc : List Candidate)
      (c : Candidate), c ∈ searchLoop process maxRes inputs acc →
      c ∈ acc ∨ ∃ u o, (u, o) ∈ inputs ∧ process u o = some c := by
  intro inputs
  induction inputs with
  | nil => intro acc c h; exact Or.inl h
  | cons p rest ih =>
    intro acc c h
    obtain ⟨u, o⟩ := p
    unfold searchLoop at h
    split_ifs at h with hfull
    · exact Or.inl h
    · revert h
      match hp : process u o with
      | some c2 =>
        intro h
        rcases ih (acc ++ [c2]) c h with hacc | ⟨u2, o2, hm, hp2⟩
        · rcases List.mem_append.mp hacc with h1 | h2
          · exact Or.inl h1
          · right
            refine ⟨u, o, List.mem_cons_self _ _, ?_⟩
            rw [hp, List.mem_singleton.mp h2]
        · exact Or.inr ⟨u2, o2, List.mem_cons_of_mem _ hm, hp2⟩
      | none =>
        intro h
        rcases ih acc c h with hacc | ⟨u2, o2, hm, hp2⟩
        · exact Or.inl hacc
        · exact Or.inr ⟨u2, o2, List.mem_cons_of_mem _ hm, hp2⟩

theorem processEnriched_score {f : SearchFilters} {now : ℤ} {detected : Option String}
    {defer : Bool} {e : EnrichedUser} {so : Option SOData} {li : Option LIData}
    {c : Candidate} (h : processEnriched f now detected defer e so li = some c) :
    c.score = calculateScore now c := by
  simp only [processEnriched] at h
  repeat' split at h
  all_goals first
    | exact Option.noConfusion h
    | (obtain rfl := Option.some.inj h; rfl)

theorem processUserBatch_some {f : SearchFilters} {now : ℤ} {u : GitHubSearchUser}
    {o : EnrichOutcome} {c : Candidate} (h : processUserBatch f now u o = some c) :
    c.score = calculateScore now c ∨
      ∃ msg, o = EnrichOutcome.failure msg ∧ isRateLimitError msg = true ∧
        c = rateLimitPlaceholder u := by
  cases o with
  | success e so li =>
    exact Or.inl (processEnriched_score (by simpa [processUserBatch] using h))
  | failure msg =>
    right
    simp only [processUserBatch] at h
    split_ifs at h with hr
    exact ⟨msg, rfl, hr, (Option.some.inj h).symm⟩

/-- C2: every list returned by the batch search is sorted by descending
score, holds at most `maxResults` (default 10) candidates, and every
score of each element is `calculateScore` of its own attributes except the fixed
sentinel score 10 of placeholders emitted for rate-limited identities. -/
theorem C2_search_sorted_bounded_scores :
    ∀ (f : SearchFilters) (now : ℤ) (inputs : List (GitHubSearchUser × EnrichOutcome)),
      List.Pairwise (fun a b : Candidate => b.score ≤ a.score) (searchBatch f now inputs) ∧
      (searchBatch f now inputs).length ≤ effMaxResults f ∧
      (∀ c ∈ searchBatch f now inputs,
        c.score = calculateScore now c ∨
          ∃ u msg, (u, EnrichOutcome.failure msg) ∈ inputs ∧
            isRateLimitError msg = true ∧ c = rateLimitPlaceholder u ∧ c.score = 10) := by
  intro f now inputs
  refine ⟨sortByScoreDesc_pairwise _, ?_, ?_⟩
  · unfold searchBatch
    rw [length_sortByScoreDesc]
    exact searchLoop_length _ _ inputs [] (by simp)
  · intro c hc
    unfold searchBatch at hc
    rw [mem_sortByScoreDesc] at hc
    rcases searchLoop_mem _ _ inputs [] c hc with h | ⟨u, o, hm, hp⟩
    · exact absurd h (List.not_mem_nil c)
    · rcases processUserBatch_some hp with hs | ⟨msg, rfl, hr, rfl⟩
      · exact Or.inl hs
      · exact Or.inr ⟨u, msg, hm, hr, rfl, rfl⟩

/-- Witness for C2: a single rate-limited identity yields the placeholder,
and the score clause holds for it with the sentinel branch. -/
theorem C2_witness :
    (rateLimitPlaceholder demoUser).score =
        calculateScore 0 (rateLimitPlaceholder demoUser) ∨
      ∃ u msg,
        (u, EnrichOutcome.failure msg) ∈
          [(demoUser, EnrichOutcome.failure "GitHub API error: 403 Forbidden")] ∧
        isRateLimitError msg = true ∧
        rateLimitPlaceholder demoUser = rateLimitPlaceholder u ∧
        (rateLimitPlaceholder demoUser).score = 10 :=
  (C2_search_sorted_bounded_scores defaultFilters 0
      [(demoUser, EnrichOutcome.failure "GitHub API error: 403 Forbidden")]).2.2
    (rateLimitPlaceholder demoUser) (by decide)

/-- C3: with a target language set and the check not deferred, strict mode
keeps a candidate exactly on a detected-language match (an undetected
language is dropped), lenient mode drops a candidate exactly when a
different language was positively detected (an undetected language is
kept); a candidate the language filter rejects is dropped by the cascade. -/
theorem C3_language_filter_strict_vs_lenient :
    (∀ (f : SearchFilters) (detected : Option String),
      f.spokenLanguage ≠ "" →
        (f.strictLanguageFilter = true →
          (languageFilterKeeps f false detected = true ↔
            detected = some f.spokenLanguage)) ∧
        (f.strictLanguageFilter = false →
          (languageFilterKeeps f false detected = true ↔
            (detected = none ∨ detected = some f.spokenLanguage))) ∧
        (f.strictLanguageFilter = true → languageFilterKeeps f false none = false) ∧
        (f.strictLanguageFilter = false → languageFilterKeeps f false none = true)) ∧
    (∀ (f : SearchFilters) (now : ℤ) (detected : Option String) (defer : Bool)
      (e : EnrichedUser) (so : Option SOData) (li : Option LIData),
      languageFilterKeeps f defer detected = false →
        processEnriched f now detected defer e so li = none) := by
  constructor
  · intro f detected hlang
    refine ⟨fun hs => ?_, fun hs => ?_, fun hs => ?_, fun hs => ?_⟩
    · simp [languageFilterKeeps, hlang, hs]
    · cases detected <;> simp [languageFilterKeeps, hlang, hs]
    · simp [languageFilterKeeps, hlang, hs]
    · simp [languageFilterKeeps, hlang, hs]
  · intro f now detected defer e so li h
    simp [processEnriched, h]

/-- Witness for C3: the strict Russian filter keeps an exact detection,
drops an undetected language (which lenient mode keeps), and the cascade
drops the filtered candidate. -/
theorem C3_witness :
    (languageFilterKeeps strictRussianLI false (some "Russian") = true ↔
      some "Russian" = some strictRussianLI.spokenLanguage) ∧
    languageFilterKeeps strictRussianLI false none = false ∧
    languageFilterKeeps lenientRussian false none = true ∧
    processEnriched strictRussianLI 0 none false plainEnrichedUser none none = none :=
  ⟨((C3_language_filter_strict_vs_lenient.1 strictRussianLI (some "Russian")
      (by decide)).1 rfl),
   ((C3_language_filter_strict_vs_lenient.1 strictRussianLI none (by decide)).2.2.1 rfl),
   ((C3_language_filter_strict_vs_lenient.1 lenientRussian none (by decide)).2.2.2 rfl),
   (C3_language_filter_strict_vs_lenient.2 strictRussianLI 0 none false
      plainEnrichedUser none none (by decide))⟩

/-- Counterexample for C4: with strict filtering, LinkedIn on and a Russian
target, the batch implementation defers the language check for a candidate
whose location and bio carry no Russian hint at all, while the streaming
implementation does not defer for that same candidate — so the hint-gating
the claim states for both implementations fails for the batch one. -/
theorem C4_counterexample :
    deferLanguageCheckBatch strictRussianLI
        (detectSpokenLanguage plainEnrichedUser.bio plainEnrichedUser.location
          plainEnrichedUser.name) = true ∧
    hasLanguageHint strictRussianLI.spokenLanguage plainEnrichedUser = false ∧
    deferLanguageCheckStream strictRussianLI plainEnrichedUser
        (detectSpokenLanguage plainEnrichedUser.bio plainEnrichedUser.location
          plainEnrichedUser.name) = false := by
  decide

/-- C4 (amended): the hint gating holds in the streaming implementation —
it defers exactly under strict + LinkedIn + no detection + a target with a
location/bio hint — while the batch implementation defers whenever strict
filtering and LinkedIn are on and nothing was detected, with no hint
requirement; in the shared cascade a deferred candidate is kept only if a
LinkedIn-reported language contains the target case-insensitively. -/
theorem C4_defer_gating_amended :
    (∀ (f : SearchFilters) (e : EnrichedUser) (detected : Option String),
      deferLanguageCheckStream f e detected = true →
        hasLanguageHint f.spokenLanguage e = true) ∧
    (∀ (f : SearchFilters) (detected : Option String),
      deferLanguageCheckBatch f detected = true ↔
        (f.strictLanguageFilter = true ∧ f.enableLinkedIn = true ∧ detected = none)) ∧
    (∀ (f : SearchFilters) (now : ℤ) (detected : Option String) (e : EnrichedUser)
      (so : Option SOData) (li : Option LIData),
      f.spokenLanguage ≠ "" →
      linkedInHasLanguage (if f.enableLinkedIn then li else none) f.spokenLanguage = false →
      processEnriched f now detected true e so li = none) := by
  refine ⟨?_, ?_, ?_⟩
  · intro f e detected h
    simp only [deferLanguageCheckStream, Bool.and_eq_true] at h
    exact h.2
  · intro f detected
    simp [deferLanguageCheckBatch, Bool.and_eq_true, Option.isNone_iff_eq_none, and_assoc]
  · intro f now detected e so li h1 h2
    simp only [processEnriched, h1, h2]
    split_ifs <;> try rfl
    rename_i hcond
    exact absurd (show (true && decide (f.spokenLanguage ≠ "") && !false) = true by
      simp [h1]) hcond

/-- Witness for C4: the streaming route defers for a Berlin-located user
under the strict German filter (whose hint is present), batch deferral is
exactly strict + LinkedIn + no detection, and a deferred candidate without
the target among its LinkedIn languages is dropped. -/
theorem C4_witness :
    hasLanguageHint strictGermanLI.spokenLanguage berlinEnrichedUser = true ∧
    deferLanguageCheckBatch strictRussianLI none = true ∧
    processEnriched strictRussianLI 0 none true plainEnrichedUser none none = none :=
  ⟨C4_defer_gating_amended.1 strictGermanLI berlinEnrichedUser
      (detectSpokenLanguage berlinEnrichedUser.bio berlinEnrichedUser.location
        berlinEnrichedUser.name) (by decide),
   (C4_defer_gating_amended.2.1 strictRussianLI none).mpr ⟨rfl, rfl, rfl⟩,
   C4_defer_gating_amended.2.2 strictRussianLI 0 none plainEnrichedUser none none
      (by decide) (by decide)⟩

/-- Counterexample for C5: the name `山田` consists of CJK unified
ideographs, yet with a null bio the detector returns null, not `Chinese` —
script-based detection on the name covers only Cyrillic. -/
theorem C5_counterexample :
    hasCharIn isCJKChar "山田" = true ∧
    detectSpokenLanguage none none (some "山田") = none := by
  decide

/-- C5 (amended): script detection treats bio and name asymmetrically: any
Cyrillic code point in bio or name yields Russian, but CJK, Hiragana /
Katakana and Hangul characters yield Chinese / Japanese / Korean only when
they occur in the bio; a CJK name with a null bio yields null. -/
theorem C5_script_detection_amended :
    ∀ (bio location name : Option String),
      ((hasCharIn isCyrillicChar (bio.getD "") ||
          hasCharIn isCyrillicChar (name.getD "")) = true →
        detectSpokenLanguage bio location name = some "Russian") ∧
      ((hasCharIn isCyrillicChar (bio.getD "") ||
          hasCharIn isCyrillicChar (name.getD "")) = false →
        hasCharIn isCJKChar (bio.getD "") = true →
        detectSpokenLanguage bio location name = some "Chinese") ∧
      ((hasCharIn isCyrillicChar (bio.getD "") ||
          hasCharIn isCyrillicChar (name.getD "")) = false →
        hasCharIn isCJKChar (bio.getD "") = false →
        hasCharIn isKanaChar (bio.getD "") = true →
        detectSpokenLanguage bio location name = some "Japanese") ∧
      ((hasCharIn isCyrillicChar (bio.getD "") ||
          hasCharIn isCyrillicChar (name.getD "")) = false →
        hasCharIn isCJKChar (bio.getD "") = false →
        hasCharIn isKanaChar (bio.getD "") = false →
        hasCharIn isHangulChar (bio.getD "") = true →
        detectSpokenLanguage bio location name = some "Korean") ∧
      detectSpokenLanguage none none (some "山田") = none := by
  intro bio location name
  refine ⟨fun h1 => ?_, fun h1 h2 => ?_, fun h1 h2 h3 => ?_, fun h1 h2 h3 h4 => ?_,
    by decide⟩
  · rcases Bool.or_eq_true_iff.mp h1 with h | h <;>
      simp [detectSpokenLanguage, h]
  · simp [detectSpokenLanguage, h1, h2]
  · simp [detectSpokenLanguage, h1, h2, h3]
  · simp [detectSpokenLanguage, h1, h2, h3, h4]

/-- Witness for C5 at one concrete input per script family. -/
theorem C5_witness :
    detectSpokenLanguage (some "Иван тут") none none = some "Russian" ∧
    detectSpokenLanguage (some "我是程序员") none none = some "Chinese" ∧
    detectSpokenLanguage (some "こんにちは") none none = some "Japanese" ∧
    detectSpokenLanguage (some "안녕하세요") none none = some "Korean" :=
  ⟨(C5_script_detection_amended (some "Иван тут") none none).1 (by decide),
   (C5_script_detection_amended (some "我是程序员") none none).2.1 (by decide) (by decide),
   (C5_script_detection_amended (some "こんにちは") none none).2.2.1 (by decide)
     (by decide) (by decide),
   (C5_script_detection_amended (some "안녕하세요") none none).2.2.2.1 (by decide)
     (by decide) (by decide) (by decide)⟩

/-- Counterexample for C7: at a rate-limited enrichment failure the batch
route pushes the sentinel placeholder, while the streaming route emits
nothing at all — so the placeholder behaviour the claim states for both
implementations fails for the streaming one. -/
theorem C7_counterexample :
    isRateLimitError "GitHub API error: 403 Forbidden" = true ∧
    processUserStream defaultFilters 0 demoUser
        (EnrichOutcome.failure "GitHub API error: 403 Forbidden") = none ∧
    processUserBatch defaultFilters 0 demoUser
        (EnrichOutcome.failure "GitHub API error: 403 Forbidden") =
      some (rateLimitPlaceholder demoUser) := by
  decide

/-- C7 (amended): in the batch implementation a per-identity enrichment
failure whose message indicates rate limiting (contains `403` or
`rate limit`) yields the minimal placeholder with sentinel score 10 and any
other failure skips the identity; the streaming implementation skips the
identity on every enrichment failure. -/
theorem C7_failure_handling_amended :
    ∀ (f : SearchFilters) (now : ℤ) (u : GitHubSearchUser) (msg : String),
      (isRateLimitError msg = true →
        processUserBatch f now u (EnrichOutcome.failure msg) =
          some (rateLimitPlaceholder u)) ∧
      (isRateLimitError msg = false →
        processUserBatch f now u (EnrichOutcome.failure msg) = none) ∧
      processUserStream f now u (EnrichOutcome.failure msg) = none ∧
      (rateLimitPlaceholder u).score = 10 := by
  intro f now u msg
  refine ⟨fun h => ?_, fun h => ?_, rfl, rfl⟩
  · simp [processUserBatch, h]
  · simp [processUserBatch, h]

/-- Witness for C7 at a rate-limit message and an unrelated message. -/
theorem C7_witness :
    processUserBatch defaultFilters 5 demoUser
        (EnrichOutcome.failure "API rate limit exceeded") =
      some (rateLimitPlaceholder demoUser) ∧
    processUserBatch defaultFilters 5 demoUser
        (EnrichOutcome.failure "network timeout") = none :=
  ⟨(C7_failure_handling_amended defaultFilters 5 demoUser "API rate limit exceeded").1
      (by decide),
   (C7_failure_handling_amended defaultFilters 5 demoUser "network timeout").2.1
      (by decide)⟩

/-- C8: a write followed by a read at the same instant returns the value,
the stored expiry is exactly 24 hours after the write, and a read after the
clock passes that expiry returns absent and deletes the entry. -/
theorem C8_cache_roundtrip_and_ttl :
    ∀ (α : Type) (now : ℤ) (key : String) (v : α) (st : CacheState α),
      (getCached now key (setCache now key v st)).1 = some v ∧
      (∃ entry, List.lookup key (setCache now key v st) = some entry ∧
        entry.created_at = now ∧
        entry.expires_at = now + 24 * 60 * 60 * 1000) ∧
      (∀ now2 : ℤ, now + 24 * 60 * 60 * 1000 < now2 →
        getCached now2 key (setCache now key v st) =
          (none, deleteKey (setCache now key v st) key)) := by
  intro α now key v st
  have hl : List.lookup key (setCache now key v st) =
      some { payload := v
             created_at := now
             expires_at := now + CACHE_TTL_HOURS * 60 * 60 * 1000 } := by
    simp [setCache, List.lookup]
  refine ⟨?_, ⟨_, hl, rfl, by norm_num [CACHE_TTL_HOURS]⟩, ?_⟩
  · simp only [getCached, hl]
    rw [if_neg (by norm_num [CACHE_TTL_HOURS])]
  · intro now2 h2
    simp only [getCached, hl]
    rw [if_pos]
    norm_num [CACHE_TTL_HOURS]
    linarith

/-- Witness for C8 at a concrete key, value and clock. -/
theorem C8_witness :
    (getCached 0 "k" (setCache 0 "k" (7 : ℕ) [])).1 = some 7 ∧
    (∃ entry, List.lookup "k" (setCache 0 "k" (7 : ℕ) []) = some entry ∧
      entry.created_at = 0 ∧ entry.expires_at = 0 + 24 * 60 * 60 * 1000) ∧
    getCached 86400001 "k" (setCache 0 "k" (7 : ℕ) []) =
      (none, deleteKey (setCache 0 "k" (7 : ℕ) []) "k") :=
  ⟨(C8_cache_roundtrip_and_ttl ℕ 0 "k" 7 []).1,
   (C8_cache_roundtrip_and_ttl ℕ 0 "k" 7 []).2.1,
   (C8_cache_roundtrip_and_ttl ℕ 0 "k" 7 []).2.2 86400001 (by decide)⟩

theorem firstBioPatternMatch_mem :
    ∀ (ps : List (String × List String)) (t lang : String),
      firstBioPatternMatch t ps = some lang → lang ∈ ps.map Prod.fst := by
  intro ps
  induction ps with
  | nil => intro t lang h; exact Option.noConfusion h
  | cons p rest ih =>
    intro t lang h
    obtain ⟨l, pats⟩ := p
    unfold firstBioPatternMatch at h
    split_ifs at h with hm
    · rw [List.map_cons]
      rw [Option.some.inj h]
      exact List.mem_cons_self _ _
    · exact List.mem_cons_of_mem _ (ih t lang h)

theorem detectSpokenLanguage_range (bio location name : Option String) :
    detectSpokenLanguage bio location name = none ∨
      detectSpokenLanguage bio location name ∈ detectableLanguages.map some := by
  have hsub : ∀ x ∈ bioPatterns.map Prod.fst, x ∈ detectableLanguages := by decide
  unfold detectSpokenLanguage
  dsimp only
  split_ifs
  · exact Or.inr (by decide)
  · exact Or.inr (by decide)
  · exact Or.inr (by decide)
  · exact Or.inr (by decide)
  all_goals
    (cases hm : firstBioPatternMatch (bio.getD "") bioPatterns with
      | some lang =>
        exact Or.inr (List.mem_map.mpr
          ⟨lang, hsub lang (firstBioPatternMatch_mem _ _ _ hm), rfl⟩)
      | none => first | exact Or.inl rfl | exact Or.inr (by decide))

/-- C10 (implicit): the detector only ever returns null or one of eight
labels; English, Hindi and Arabic are offered by the search form but are
never detectable, so a strict filter for them can never be satisfied by
GitHub-signal detection. -/
theorem C10_detector_range_vs_form :
    ∀ (bio location name : Option String),
      (detectSpokenLanguage bio location name = none ∨
        detectSpokenLanguage bio location name ∈ detectableLanguages.map some) ∧
      ("English" ∈ SPOKEN_LANGUAGES ∧ "Hindi" ∈ SPOKEN_LANGUAGES ∧
        "Arabic" ∈ SPOKEN_LANGUAGES) ∧
      ("English" ∉ detectableLanguages ∧ "Hindi" ∉ detectableLanguages ∧
        "Arabic" ∉ detectableLanguages) ∧
      (∀ f : SearchFilters, f.strictLanguageFilter = true →
        f.spokenLanguage ∈ (["English", "Hindi", "Arabic"] : List String) →
        languageFilterKeeps f false (detectSpokenLanguage bio location name) = false) := by
  intro bio location name
  refine ⟨detectSpokenLanguage_range bio location name, by decide, by decide, ?_⟩
  intro f hs hmem
  have hne : detectSpokenLanguage bio location name ≠ some f.spokenLanguage := by
    intro hcon
    rcases detectSpokenLanguage_range bio location name with h | h
    · rw [h] at hcon
      exact Option.noConfusion hcon
    · rw [hcon] at h
      rcases List.mem_map.mp h with ⟨x, hx, hxx⟩
      rw [Option.some.inj hxx] at hx
      simp only [List.mem_cons, List.not_mem_nil, or_false] at hmem
      rcases hmem with hm | hm | hm <;> rw [hm] at hx <;>
        exact absurd hx (by decide)
  have hlangne : f.spokenLanguage ≠ "" := by
    simp only [List.mem_cons, List.not_mem_nil, or_false] at hmem
    rcases hmem with hm | hm | hm <;> rw [hm] <;> decide
  simp [languageFilterKeeps, hlangne, hs, hne]

/-- Witness for C10: the strict English filter rejects the signal-free
candidate whatever the detector saw, here at empty inputs. -/
theorem C10_witness :
    languageFilterKeeps strictEnglish false (detectSpokenLanguage none none none) = false :=
  (C10_detector_range_vs_form none none none).2.2.2 strictEnglish rfl (by decide)

/-- C9 (implicit): the composite score is not monotone in Stack Overflow
reputation: a candidate with 1000 followers and no SO reputation scores 25,
while the identical candidate with SO reputation 5000 blends the follower
tier 100 with the SO tier 80 and scores only 23. -/
theorem C9_so_reputation_lowers_score :
    ({ emptyCandidate with followers := 1000 } : Candidate).stackoverflow_reputation = 0 ∧
    calculateScore 0 { emptyCandidate with followers := 1000, stackoverflow_reputation := 5000 } <
      calculateScore 0 { emptyCandidate with followers := 1000 } := by
  refine ⟨rfl, ?_⟩
  norm_num [emptyCandidate, calculateScore, calculateScoreComponents,
    scoreContributionVolume, scoreProjectQuality, scoreRecency, scoreReputation,
    followerTier, soTier, jsRound_eq_floor]

end ITPeople

